import Mathlib

/-!
Verification of the terraform-polar reconciliation core.

This file gives a shallow embedding, in Lean 4, of the reconciliation
engine of the provider: the eventual-consistency poller and timestamp
derivation (internal/provider/helpers.go), the price identity matcher and
formatting normalizer (internal/provider/resource_product_sdk.go), the
bounded-retry HTTP wrapper (doWithRetry), and the ordering of steps in the
product Create flow (internal/provider/resource_product.go).  Stateful Go
code is modelled by explicit state passing; machine floats are modelled by
exact rationals on the decimal fragment of strconv.ParseFloat (hex floats,
Inf and NaN are outside the modelled fragment); Terraform attribute values
are modelled by an explicit null / unknown / value sum.
-/

/-- Model of a Terraform framework attribute value (types.String,
types.Int64): a tri-state of null, unknown, or a concrete value. -/
inductive TfVal (α : Type) where
  | null
  | unknown
  | value (a : α)
deriving DecidableEq, Repr

/-- Model of the framework accessor IsNull. -/
def TfVal.isNull {α : Type} : TfVal α → Bool
  | .null => true
  | _ => false

/-- Model of the framework accessor IsUnknown. -/
def TfVal.isUnknown {α : Type} : TfVal α → Bool
  | .unknown => true
  | _ => false

/-- Model of ValueString: the zero value "" is returned for null/unknown. -/
def valueString : TfVal String → String
  | .value s => s
  | _ => ""

/-- Model of ValueInt64: the zero value 0 is returned for null/unknown. -/
def valueInt64 : TfVal Int → Int
  | .value i => i
  | _ => 0

/-- Model of ValueBool: the zero value false for null/unknown. -/
def valueBool : TfVal Bool → Bool
  | .value b => b
  | _ => false

/-- Model of a Timestamped Polar API resource (helpers.go): remote-issued
created_at / modified_at instants, modelled as integers. -/
structure TSResource where
  createdAt : Int
  modifiedAt : Option Int
deriving DecidableEq, Repr

/-- Model of latestTimestamp (helpers.go lines 32-37): returns ModifiedAt
if present, otherwise CreatedAt. -/
def latestTimestamp (t : TSResource) : Int :=
  match t.modifiedAt with
  | some m => m
  | none => t.createdAt

/-- Model of the pollMaxAttempts constant (helpers.go line 41). -/
def pollMaxAttempts : Nat := 10

/-- Outcome of one call to the injected fetch closure of
pollForConsistency: a typed 404 (isNotFound), any other error, or a
successfully fetched timestamped resource. -/
inductive FetchOutcome where
  | notFound
  | failure
  | ok (r : TSResource)
deriving DecidableEq, Repr

/-- Result of pollForConsistency: a consistent read (no warning), the last
stale read returned with the eventual-consistency-timeout warning, a
propagated non-404 fetch error, or the hard not-readable error after
exhaustion with no successful read.  Context cancellation is not modelled
(the ctx.Done branch only fires on caller cancellation). -/
inductive PollResult where
  | accepted (r : TSResource)
  | softTimeout (r : TSResource)
  | propagatedError
  | notReadableError
deriving DecidableEq, Repr

/-- Loop body of pollForConsistency (helpers.go lines 116-173), with the
attempt index, remaining attempts, and the last successful read threaded
explicitly.  Mirrors the Go loop: a 404 retries, any other fetch error
returns immediately, a read older than the write timestamp is recorded and
retried, a read at or after the write timestamp is returned at once; on
exhaustion the last read (if any) is returned as a soft timeout, otherwise
a hard error. -/
def pollAux (writeTs : Int) (fetch : Nat → FetchOutcome) :
    Nat → Nat → Option TSResource → PollResult
  | _, 0, last =>
    match last with
    | some r => .softTimeout r
    | none => .notReadableError
  | i, fuel + 1, last =>
    match fetch i with
    | .notFound => pollAux writeTs fetch (i + 1) fuel last
    | .failure => .propagatedError
    | .ok r =>
      if latestTimestamp r < writeTs then
        pollAux writeTs fetch (i + 1) fuel (some r)
      else
        .accepted r

/-- Model of pollForConsistency (helpers.go): run the loop for
pollMaxAttempts attempts starting with no recorded read. -/
def pollForConsistency (writeTs : Int) (fetch : Nat → FetchOutcome) : PollResult :=
  pollAux writeTs fetch 0 pollMaxAttempts none

/-- A fetch outcome that keeps the loop of pollForConsistency going:
either a typed 404 or a successful read that is still stale (strictly
before the write timestamp).  These are exactly the outcomes that neither
return early with success nor propagate an error. -/
def isNonAccepting (writeTs : Int) : FetchOutcome → Bool
  | .notFound => true
  | .failure => false
  | .ok r => decide (latestTimestamp r < writeTs)

/-- The last successful read among fetch outcomes i, i+1, ..., i+fuel-1,
given that `last` was the last successful read so far. -/
def lastOkFrom (fetch : Nat → FetchOutcome) :
    Nat → Nat → Option TSResource → Option TSResource
  | _, 0, last => last
  | i, fuel + 1, last =>
    match fetch i with
    | .ok r => lastOkFrom fetch (i + 1) fuel (some r)
    | _ => lastOkFrom fetch (i + 1) fuel last

/-- Numeric value of a list of decimal digit characters, most significant
first. -/
def digitsToNat (cs : List Char) : Nat :=
  cs.foldl (fun acc c => acc * 10 + (c.toNat - 48)) 0

/-- Split a character list into its leading run of decimal digits and the
rest. -/
def splitDigits : List Char → List Char × List Char
  | [] => ([], [])
  | c :: cs =>
    if c.isDigit then
      let p := splitDigits cs
      (c :: p.1, p.2)
    else
      ([], c :: cs)

/-- Consume an optional leading sign; returns (isNegative, rest). -/
def takeSign : List Char → Bool × List Char
  | '-' :: cs => (true, cs)
  | '+' :: cs => (false, cs)
  | cs => (false, cs)

/-- Recognise the exponent suffix of a decimal literal: either nothing, or
e/E followed by an optionally signed non-empty digit run ending the
string.  Returns the signed exponent, or none if malformed. -/
def takeExpSuffix : List Char → Option Int
  | [] => some (0)
  | c :: cs =>
    if c = 'e' ∨ c = 'E' then
      let sgn := takeSign cs
      let ds := splitDigits sgn.2
      if ds.1.isEmpty ∨ ¬ ds.2.isEmpty then none
      else if sgn.1 then some (-(digitsToNat ds.1 : Int))
      else some ((digitsToNat ds.1 : Int))
    else none

/-- Exact value of a finite decimal literal: sign, mantissa digits, and a
power-of-ten exponent, denoting (-1)^neg * mant * 10^exp.  This represents
the parsed number exactly (the Go code rounds it to the nearest binary64
float; on the decimal comparisons the provider performs the exact value is
the intended semantics). -/
structure DecNum where
  neg : Bool
  mant : Nat
  exp : Int
deriving DecidableEq, Repr

/-- Signed mantissa of a decimal value. -/
def DecNum.signedMant (d : DecNum) : Int :=
  if d.neg then -(d.mant : Int) else (d.mant : Int)

/-- Exact rational value denoted by a DecNum. -/
def DecNum.toRat (d : DecNum) : ℚ :=
  (d.signedMant : ℚ) * (10 : ℚ) ^ d.exp

/-- Numeric equality of two decimal values, computed by bringing both to
the smaller exponent and comparing signed integer mantissas. -/
def decNumValueEq (x y : DecNum) : Bool :=
  let m := min x.exp y.exp
  decide (x.signedMant * (10 : Int) ^ (x.exp - m).toNat =
    y.signedMant * (10 : Int) ^ (y.exp - m).toNat)

/-- Model of strconv.ParseFloat(s, 64) restricted to the plain decimal
fragment: an optional sign, digits with an optional fractional part (at
least one digit overall), and an optional e/E exponent.  The value is kept
exactly as sign/mantissa/exponent instead of the nearest binary64 float;
hex literals, "Inf" and "NaN" are outside the modelled fragment and parse
to none. -/
def parseDecimal (s : String) : Option DecNum :=
  let sgn := takeSign s.data
  let ipr := splitDigits sgn.2
  match ipr.2 with
  | '.' :: rest =>
    let fpr := splitDigits rest
    if ipr.1.isEmpty ∧ fpr.1.isEmpty then none
    else
      match takeExpSuffix fpr.2 with
      | none => none
      | some e => some ⟨sgn.1, digitsToNat (ipr.1 ++ fpr.1), e - (fpr.1.length : Int)⟩
  | other =>
    if ipr.1.isEmpty then none
    else
      match takeExpSuffix other with
      | none => none
      | some e => some ⟨sgn.1, digitsToNat ipr.1, e⟩

/-- Model of numericStringsEqual (resource_product_sdk.go lines 534-538):
parse both strings; equal only when both parses succeed and the numeric
values coincide.  Any parse failure makes the comparison false. -/
def numericStringsEqual (a b : String) : Bool :=
  match parseDecimal a, parseDecimal b with
  | some x, some y => decNumValueEq x y
  | _, _ => false

/-- Remove factors of ten from the mantissa while the exponent is
negative: this strips trailing zeros of the fractional part.  Fuel bounds
the iteration count. -/
def stripTenFactors : Nat → Int → Nat → Nat × Int
  | m, e, 0 => (m, e)
  | m, e, fuel + 1 =>
    if e < 0 ∧ m % 10 = 0 ∧ m ≠ 0 then stripTenFactors (m / 10) (e + 1) fuel
    else (m, e)

/-- Left-pad a digit character list with zeros to the given width. -/
def padZeros (ds : List Char) (k : Nat) : List Char :=
  List.replicate (k - ds.length) '0' ++ ds

/-- Plain decimal rendering of a DecNum with no exponent notation and
trailing fractional zeros stripped: the model of
strconv.FormatFloat(f, 'f', -1, 64) on the modelled fragment. -/
def formatDecNum (d : DecNum) : String :=
  let s := stripTenFactors d.mant d.exp (Int.toNat (-d.exp))
  let base :=
    if s.1 = 0 then "0"
    else if 0 ≤ s.2 then toString (s.1 * 10 ^ s.2.toNat)
    else
      let k := (-s.2).toNat
      toString (s.1 / 10 ^ k) ++ "." ++ String.mk (padZeros (Nat.toDigits 10 (s.1 % 10 ^ k)) k)
  if d.neg then "-" ++ base else base

/-- Model of normalizeDecimalString (resource_product_sdk.go lines
524-530): parse failures return the string unchanged; otherwise the value
is re-rendered without trailing zeros. -/
def normalizeDecimalString (s : String) : String :=
  match parseDecimal s with
  | none => s
  | some q => formatDecNum q

/-- Model of PriceModel (resource_product.go lines 60-73): one flat struct
covering all price amount types, with unused fields null. -/
structure PriceModel where
  amountType : TfVal String
  priceCurrency : TfVal String
  priceAmount : TfVal Int
  minimumAmount : TfVal Int
  maximumAmount : TfVal Int
  presetAmount : TfVal Int
  meterID : TfVal String
  unitAmount : TfVal String
  capAmount : TfVal Int
deriving DecidableEq, Repr

/-- Model of optionalInt64Equal (resource_product_sdk.go lines 358-366):
two optional int64 attributes are equal when both null, or both non-null
with the same value. -/
def optionalInt64Equal (a b : TfVal Int) : Bool :=
  if a.isNull && b.isNull then true
  else if a.isNull != b.isNull then false
  else decide (valueInt64 a = valueInt64 b)

/-- Model of pricesMatch (resource_product_sdk.go lines 326-356): compares
the user-specified fields of two price models, dispatching on the planned
amount type.  A planned price_currency that is null or unknown skips the
currency comparison entirely. -/
def pricesMatch (planned existing : PriceModel) : Bool :=
  if valueString planned.amountType ≠ valueString existing.amountType then false
  else
    match valueString planned.amountType with
    | "fixed" =>
      if valueInt64 planned.priceAmount ≠ valueInt64 existing.priceAmount then false
      else if planned.priceCurrency.isNull = false ∧ planned.priceCurrency.isUnknown = false ∧
          valueString planned.priceCurrency ≠ valueString existing.priceCurrency then false
      else true
    | "free" => true
    | "custom" =>
      optionalInt64Equal planned.minimumAmount existing.minimumAmount &&
      optionalInt64Equal planned.maximumAmount existing.maximumAmount &&
      optionalInt64Equal planned.presetAmount existing.presetAmount
    | "metered_unit" =>
      if valueString planned.meterID ≠ valueString existing.meterID then false
      else if numericStringsEqual (valueString planned.unitAmount)
          (valueString existing.unitAmount) = false then false
      else optionalInt64Equal planned.capAmount existing.capAmount
    | _ => false

/-- Model of the SDK ProductPrice union: exactly one variant pointer is
non-nil in the Go struct, plus a case for a variant this provider version
does not recognise (all pointers nil). -/
inductive ProductPrice where
  | fixed (id : String) (priceAmount : Int) (priceCurrency : String)
  | free (id : String)
  | custom (id : String) (priceCurrency : String)
      (minimumAmount maximumAmount presetAmount : Option Int)
  | meteredUnit (id : String) (priceCurrency : String) (meterID : String)
      (unitAmount : String) (capAmount : Option Int)
  | unrecognized
deriving DecidableEq, Repr

/-- The id selected by the switch in extractExistingPrices
(resource_product_sdk.go lines 309-319); the unrecognized case keeps the
zero value. -/
def productPriceId : ProductPrice → String
  | .fixed id _ _ => id
  | .free id => id
  | .custom id _ _ _ _ => id
  | .meteredUnit id _ _ _ _ => id
  | .unrecognized => ""

/-- Model of nullPriceModel (resource_product_sdk.go lines 474-486). -/
def nullPriceModel (amountType : String) (currency : TfVal String) : PriceModel :=
  { amountType := TfVal.value amountType
    priceCurrency := currency
    priceAmount := TfVal.null
    minimumAmount := TfVal.null
    maximumAmount := TfVal.null
    presetAmount := TfVal.null
    meterID := TfVal.null
    unitAmount := TfVal.null
    capAmount := TfVal.null }

/-- Model of optionalInt64Value (helpers.go lines 96-101). -/
def optionalInt64Value (i : Option Int) : TfVal Int :=
  match i with
  | none => TfVal.null
  | some v => TfVal.value v

/-- Model of sdkProductPriceToModel (resource_product_sdk.go lines
489-520): convert one SDK price union variant into a flat PriceModel; the
metered-unit unit amount is normalized; unrecognised variants map to
none. -/
def sdkProductPriceToModel : ProductPrice → Option PriceModel
  | .fixed _ amount currency =>
    some { nullPriceModel ("fixed") (TfVal.value currency) with
      priceAmount := TfVal.value amount }
  | .free _ => some (nullPriceModel ("free") TfVal.null)
  | .custom _ currency mn mx ps =>
    some { nullPriceModel ("custom") (TfVal.value currency) with
      minimumAmount := optionalInt64Value mn
      maximumAmount := optionalInt64Value mx
      presetAmount := optionalInt64Value ps }
  | .meteredUnit _ currency meter ua cap =>
    some { nullPriceModel ("metered_unit") (TfVal.value currency) with
      meterID := TfVal.value meter
      unitAmount := TfVal.value (normalizeDecimalString ua)
      capAmount := optionalInt64Value cap }
  | .unrecognized => none

/-- Model of the existingPrice struct (resource_product_sdk.go lines
292-296). -/
structure ExistingPrice where
  id : String
  data : PriceModel
  used : Bool
deriving DecidableEq, Repr

/-- Model of extractExistingPrices (resource_product_sdk.go lines
299-323): prices with a nil union or an unrecognised variant are skipped;
the rest become matchable entries with used = false. -/
def extractExistingPrices (apiPrices : List (Option ProductPrice)) : List ExistingPrice :=
  apiPrices.filterMap (fun op =>
    match op with
    | none => none
    | some pp =>
      match sdkProductPriceToModel pp with
      | none => none
      | some model => some ⟨productPriceId pp, model, false⟩)

/-- Model of components.ProductPriceFixedCreate as filled by
buildFixedPriceCreate. -/
structure ProductPriceFixedCreate where
  priceAmount : Int
  priceCurrency : Option String
deriving DecidableEq, Repr

/-- Model of components.ProductPriceCustomCreate as filled by
buildCustomPriceCreate. -/
structure ProductPriceCustomCreate where
  priceCurrency : Option String
  minimumAmount : Option Int
  maximumAmount : Option Int
  presetAmount : Option Int
deriving DecidableEq, Repr

/-- Model of components.ProductPriceMeteredUnitCreate as filled by
buildMeteredUnitPriceCreate. -/
structure ProductPriceMeteredUnitCreate where
  meterID : String
  unitAmount : String
  priceCurrency : Option String
  capAmount : Option Int
deriving DecidableEq, Repr

/-- Model of optionalCurrency (resource_product_sdk.go lines 198-204). -/
def optionalCurrency (p : PriceModel) : Option String :=
  if p.priceCurrency.isNull = false ∧ p.priceCurrency.isUnknown = false then
    some (valueString p.priceCurrency)
  else none

/-- Model of buildFixedPriceCreate (resource_product_sdk.go lines
206-211). -/
def buildFixedPriceCreate (p : PriceModel) : ProductPriceFixedCreate :=
  ⟨valueInt64 p.priceAmount, optionalCurrency p⟩

/-- Model of buildCustomPriceCreate (resource_product_sdk.go lines
213-230): each amount is included only when the attribute is non-null. -/
def buildCustomPriceCreate (p : PriceModel) : ProductPriceCustomCreate :=
  { priceCurrency := optionalCurrency p
    minimumAmount := if p.minimumAmount.isNull then none else some (valueInt64 p.minimumAmount)
    maximumAmount := if p.maximumAmount.isNull then none else some (valueInt64 p.maximumAmount)
    presetAmount := if p.presetAmount.isNull then none else some (valueInt64 p.presetAmount) }

/-- Model of buildMeteredUnitPriceCreate (resource_product_sdk.go lines
232-243). -/
def buildMeteredUnitPriceCreate (p : PriceModel) : ProductPriceMeteredUnitCreate :=
  { meterID := valueString p.meterID
    unitAmount := valueString p.unitAmount
    priceCurrency := optionalCurrency p
    capAmount := if p.capAmount.isNull then none else some (valueInt64 p.capAmount) }

/-- Model of components.ProductUpdatePrices: either a reference to an
existing price by id, or a new price definition. -/
inductive ProductUpdatePrice where
  | existing (id : String)
  | newFixed (c : ProductPriceFixedCreate)
  | newFree
  | newCustom (c : ProductPriceCustomCreate)
  | newMeteredUnit (c : ProductPriceMeteredUnitCreate)
deriving DecidableEq, Repr

/-- The create-new-price switch of pricesToUpdateSDK
(resource_product_sdk.go lines 394-414); an unsupported amount type is the
error path (diagnostics plus nil result). -/
def buildNewPrice (p : PriceModel) : Option ProductUpdatePrice :=
  match valueString p.amountType with
  | "fixed" => some (ProductUpdatePrice.newFixed (buildFixedPriceCreate p))
  | "free" => some ProductUpdatePrice.newFree
  | "custom" => some (ProductUpdatePrice.newCustom (buildCustomPriceCreate p))
  | "metered_unit" => some (ProductUpdatePrice.newMeteredUnit (buildMeteredUnitPriceCreate p))
  | _ => none

/-- The inner scan of pricesToUpdateSDK (resource_product_sdk.go lines
379-388): find the first unused existing price matching the planned one;
return its id and the list with that entry marked used. -/
def findMatch (p : PriceModel) : List ExistingPrice → Option (String × List ExistingPrice)
  | [] => none
  | ep :: rest =>
    if ep.used = false ∧ pricesMatch p ep.data = true then
      some (ep.id, { ep with used := true } :: rest)
    else
      match findMatch p rest with
      | some pr => some (pr.1, ep :: pr.2)
      | none => none

/-- The outer loop of pricesToUpdateSDK over planned prices, with the
mutable used flags of the existing list threaded explicitly.  A planned
price either reuses the first matching unused existing id or becomes a new
price definition; an unsupported amount type aborts with none. -/
def pricesToUpdateAux : List PriceModel → List ExistingPrice →
    Option (List ProductUpdatePrice)
  | [], _ => some []
  | p :: ps, ex =>
    match findMatch p ex with
    | some pr =>
      match pricesToUpdateAux ps pr.2 with
      | some out => some (ProductUpdatePrice.existing pr.1 :: out)
      | none => none
    | none =>
      match buildNewPrice p with
      | none => none
      | some np =>
        match pricesToUpdateAux ps ex with
        | some out => some (np :: out)
        | none => none

/-- Model of pricesToUpdateSDK (resource_product_sdk.go lines 371-417). -/
def pricesToUpdateSDK (planned : List PriceModel)
    (currentPrices : List (Option ProductPrice)) : Option (List ProductUpdatePrice) :=
  pricesToUpdateAux planned (extractExistingPrices currentPrices)

/-- Ids of the entries of an existing-price list that are not yet used. -/
def unusedIds (ex : List ExistingPrice) : List String :=
  ex.filterMap (fun ep => if ep.used then none else some ep.id)

/-- The existing-price ids referenced by an update price list, in order. -/
def reusedIds (out : List ProductUpdatePrice) : List String :=
  out.filterMap (fun u =>
    match u with
    | ProductUpdatePrice.existing id => some id
    | _ => none)

/-- The inner scan of preserveUnitAmountFormatting
(resource_product_sdk.go lines 553-561): find the first prior price that
is unused, has a non-null unit amount, and matches the given price by
content; return its unit amount and the prior list with that entry marked
used. -/
def findFormattingSource (p : PriceModel) : List (PriceModel × Bool) →
    Option (TfVal String × List (PriceModel × Bool))
  | [] => none
  | q :: rest =>
    if q.2 = false ∧ q.1.unitAmount.isNull = false ∧ pricesMatch p q.1 = true then
      some (q.1.unitAmount, (q.1, true) :: rest)
    else
      match findFormattingSource p rest with
      | some pr => some (pr.1, q :: pr.2)
      | none => none

/-- The outer loop of preserveUnitAmountFormatting: prices with a null
unit amount are left alone; otherwise the first matching prior price (if
any) donates its unit-amount formatting. -/
def preserveAux : List PriceModel → List (PriceModel × Bool) → List PriceModel
  | [], _ => []
  | p :: ps, priors =>
    if p.unitAmount.isNull then p :: preserveAux ps priors
    else
      match findFormattingSource p priors with
      | some pr => { p with unitAmount := pr.1 } :: preserveAux ps pr.2
      | none => p :: preserveAux ps priors

/-- Model of preserveUnitAmountFormatting (resource_product_sdk.go lines
547-564).  The Go function mutates prices in place and only reads
priorPrices; the model returns the updated prices list. -/
def preserveUnitAmountFormatting (prices priorPrices : List PriceModel) : List PriceModel :=
  preserveAux prices (priorPrices.map (fun q => (q, false)))

/-- Outcome of one invocation of the operation passed to doWithRetry: a
transport error, a nil response (the caller already consumed a successful
response), or an HTTP response with a status code. -/
inductive HTTPOutcome where
  | err
  | handled
  | status (code : Nat)
deriving DecidableEq, Repr

/-- Result of doWithRetry: success, a propagated operation error, the
failed-with-status error, or the max-retries error (unreachable from the
entry point, as in the Go code). -/
inductive RetryResult where
  | ok
  | errProp
  | errStatus (code : Nat)
  | errMaxRetries
deriving DecidableEq, Repr

/-- Model of the maxAttempts constant of doWithRetry. -/
def retryMaxAttempts : Nat := 5

/-- Loop of doWithRetry (organization supplemental transport, lines
348-401 of its file), with the attempt counter and remaining fuel
explicit.  An operation error or a nil response returns immediately; a 2xx
succeeds; a 429 or 5xx retries after a backoff wait (time and context
cancellation are not modelled) while attempts remain; any other status
returns the status error at once.  The second component counts how many
times the operation was invoked. -/
def doWithRetryAux (fn : Nat → HTTPOutcome) : Nat → Nat → RetryResult × Nat
  | _, 0 => (RetryResult.errMaxRetries, 0)
  | attempt, fuel + 1 =>
    match fn attempt with
    | .err => (RetryResult.errProp, 1)
    | .handled => (RetryResult.ok, 1)
    | .status code =>
      if 200 ≤ code ∧ code < 300 then (RetryResult.ok, 1)
      else if (code = 429 ∨ 500 ≤ code) ∧ attempt + 1 < retryMaxAttempts then
        let r := doWithRetryAux fn (attempt + 1) fuel
        (r.1, r.2 + 1)
      else (RetryResult.errStatus code, 1)

/-- Model of doWithRetry: run the loop from attempt 0 with
retryMaxAttempts attempts. -/
def doWithRetry (fn : Nat → HTTPOutcome) : RetryResult :=
  (doWithRetryAux fn 0 retryMaxAttempts).1

/-- Number of times doWithRetry invokes its operation. -/
def doWithRetryCalls (fn : Nat → HTTPOutcome) : Nat :=
  (doWithRetryAux fn 0 retryMaxAttempts).2

/-- Externally visible steps of the product Create flow, in execution
order. -/
inductive CreateAction where
  | apiCreate
  | stateSetId (id : String)
  | apiUpdateBenefits (id : String)
  | pollRead (id : String)
  | stateSetFinal (id : String)
deriving DecidableEq, Repr

/-- Outcomes of the external calls made by the product Create flow: the id
returned by Products.Create (none on error), whether benefit_ids is
non-null in the plan, whether UpdateBenefits succeeds, and whether the
consistency poll returns without a hard error. -/
structure CreateOutcomes where
  createResult : Option String
  manageBenefits : Bool
  benefitsOk : Bool
  pollOk : Bool
deriving DecidableEq, Repr

/-- Final observable result of a Create execution: the product id present
in Terraform state, and whether an error diagnostic was returned. -/
structure CreateEnd where
  stateID : Option String
  failed : Bool
deriving DecidableEq, Repr

/-- Model of ProductResource.Create (resource_product.go lines 340-415):
create the product (an error ends the flow with no id in state); persist
the returned id into state immediately; attach benefits when managed (an
error ends the flow, id already persisted); poll for consistency (a hard
error ends the flow, id already persisted); map the response and save the
final state.  Plan decoding, request building and framework state-set
diagnostics are assumed to succeed; the poll soft-timeout path is a
non-failing outcome. -/
def productCreateFlow (o : CreateOutcomes) : List CreateAction × CreateEnd :=
  match o.createResult with
  | none => ([CreateAction.apiCreate], ⟨none, true⟩)
  | some id =>
    let tr0 := [CreateAction.apiCreate, CreateAction.stateSetId id]
    if o.manageBenefits = true ∧ o.benefitsOk = false then
      (tr0 ++ [CreateAction.apiUpdateBenefits id], ⟨some id, true⟩)
    else
      let tr1 := if o.manageBenefits then tr0 ++ [CreateAction.apiUpdateBenefits id] else tr0
      if o.pollOk = false then
        (tr1 ++ [CreateAction.pollRead id], ⟨some id, true⟩)
      else
        (tr1 ++ [CreateAction.pollRead id, CreateAction.stateSetFinal id], ⟨some id, false⟩)

/-- A planned fixed price of 500 with no currency set, as written in a
Terraform configuration that omits price_currency. -/
def plannedFixed500 : PriceModel :=
  { amountType := TfVal.value ("fixed")
    priceCurrency := TfVal.null
    priceAmount := TfVal.value 500
    minimumAmount := TfVal.null
    maximumAmount := TfVal.null
    presetAmount := TfVal.null
    meterID := TfVal.null
    unitAmount := TfVal.null
    capAmount := TfVal.null }

/-- A planned metered-unit price whose unit amount is authored as 0.5. -/
def plannedMetered05 : PriceModel :=
  { amountType := TfVal.value ("metered_unit")
    priceCurrency := TfVal.null
    priceAmount := TfVal.null
    minimumAmount := TfVal.null
    maximumAmount := TfVal.null
    presetAmount := TfVal.null
    meterID := TfVal.value ("meter_1")
    unitAmount := TfVal.value ("0.5")
    capAmount := TfVal.null }

/-- The same metered-unit price with the unit amount authored as 0.50. -/
def priorMetered050 : PriceModel :=
  { plannedMetered05 with unitAmount := TfVal.value ("0.50") }

/-- Two price models agree on every field except possibly unitAmount. -/
def sameApartFromUnitAmount (a b : PriceModel) : Prop :=
  a.amountType = b.amountType ∧ a.priceCurrency = b.priceCurrency ∧
  a.priceAmount = b.priceAmount ∧ a.minimumAmount = b.minimumAmount ∧
  a.maximumAmount = b.maximumAmount ∧ a.presetAmount = b.presetAmount ∧
  a.meterID = b.meterID ∧ a.capAmount = b.capAmount

/-- Claim C3, counterexample: a resource whose modified_at (1) is earlier
than its created_at (5).  The code returns modified_at unchanged, which is
not the maximum of the two timestamps. -/
theorem claim_C3_counterexample :
    ¬ (latestTimestamp (TSResource.mk 5 (some 1)) =
      max ((TSResource.mk 5 (some 1)).modifiedAt.getD (TSResource.mk 5 (some 1)).createdAt)
        (TSResource.mk 5 (some 1)).createdAt) := by
  decide

/-- Claim C3 (amended): latestTimestamp returns modified_at when present
and created_at otherwise; whenever modified_at (if present) is not earlier
than created_at, this coincides with the maximum of the two remote-issued
timestamps. -/
theorem claim_C3_latest_timestamp (t : TSResource)
    (h : ∀ m, t.modifiedAt = some m → t.createdAt ≤ m) :
    latestTimestamp t = t.modifiedAt.getD t.createdAt ∧
    latestTimestamp t = max (t.modifiedAt.getD t.createdAt) t.createdAt := by
  cases t with
  | mk c mo =>
    cases mo with
    | none => simp [latestTimestamp]
    | some m =>
      have hm : c ≤ m := h m rfl
      refine ⟨rfl, ?_⟩
      show m = max m c
      omega

/-- Witness for claim C3 at created_at 3, modified_at 7. -/
theorem claim_C3_latest_timestamp_witness :
    latestTimestamp (TSResource.mk 3 (some 7)) =
      (TSResource.mk 3 (some 7)).modifiedAt.getD (TSResource.mk 3 (some 7)).createdAt ∧
    latestTimestamp (TSResource.mk 3 (some 7)) =
      max ((TSResource.mk 3 (some 7)).modifiedAt.getD (TSResource.mk 3 (some 7)).createdAt)
        (TSResource.mk 3 (some 7)).createdAt :=
  claim_C3_latest_timestamp (TSResource.mk 3 (some 7))
    (fun m hm => by
      simp only [Option.some.injEq] at hm
      show (3 : Int) ≤ m
      omega)

/-- Claim C4, counterexample: the string abc is not parseable, yet
comparing it with itself (lexically identical) yields false, where the
claim requires true. -/
theorem claim_C4_counterexample :
    (parseDecimal ("abc")).isNone = true ∧
    numericStringsEqual ("abc") ("abc") = false := by
  decide

/-- Claim C4 (amended): whenever at least one of the two strings fails to
parse as a decimal number, numericStringsEqual is false — even when the
strings are lexically identical. -/
theorem claim_C4_nonparseable (a b : String)
    (h : parseDecimal a = none ∨ parseDecimal b = none) :
    numericStringsEqual a b = false := by
  cases ha : parseDecimal a <;> cases hb : parseDecimal b <;>
    simp_all [numericStringsEqual]

/-- Witness for claim C4 on two distinct non-parseable strings. -/
theorem claim_C4_nonparseable_witness :
    numericStringsEqual ("abc") ("xyz") = false :=
  claim_C4_nonparseable ("abc") ("xyz") (Or.inl rfl)

/-- Claim C6: first-fit matching in list order — two identical planned
fixed-500 prices against existing prices A and B (both fixed 500) are
assigned A then B, never the reversed assignment. -/
theorem claim_C6_first_fit :
    pricesToUpdateSDK [plannedFixed500, plannedFixed500]
      [some (ProductPrice.fixed ("A") 500 ("usd")), some (ProductPrice.fixed ("B") 500 ("usd"))]
      = some [ProductUpdatePrice.existing ("A"), ProductUpdatePrice.existing ("B")] := by
  decide

/-- Claim C7: 0.5, 0.50 and 0.500000000000 are mutually equal numeric
strings, and preserveUnitAmountFormatting lets the prior representation
0.50 survive over the current 0.5 on a semantically matching price. -/
theorem claim_C7_formatting_preservation :
    numericStringsEqual ("0.5") ("0.50") = true ∧
    numericStringsEqual ("0.50") ("0.5") = true ∧
    numericStringsEqual ("0.5") ("0.500000000000") = true ∧
    numericStringsEqual ("0.500000000000") ("0.5") = true ∧
    numericStringsEqual ("0.50") ("0.500000000000") = true ∧
    numericStringsEqual ("0.500000000000") ("0.50") = true ∧
    preserveUnitAmountFormatting [plannedMetered05] [priorMetered050] = [priorMetered050] := by
  decide

/-- Claim C5, counterexample: a planned fixed price with price_currency
unset matches an existing fixed price whose currency is usd — the unset
optional field acts as a wildcard, which the claim rules out. -/
theorem claim_C5_counterexample :
    plannedFixed500.priceCurrency.isNull = true ∧
    ({ nullPriceModel ("fixed") (TfVal.value ("usd")) with
        priceAmount := TfVal.value 500 } : PriceModel).priceCurrency.isNull = false ∧
    pricesMatch plannedFixed500
      { nullPriceModel ("fixed") (TfVal.value ("usd")) with
        priceAmount := TfVal.value 500 } = true := by
  decide

/-- If two optional int64 attributes compare equal under
optionalInt64Equal, they agree on nullness: an absent side never matches a
present side. -/
theorem optionalInt64Equal_isNull_eq (a b : TfVal Int)
    (h : optionalInt64Equal a b = true) : a.isNull = b.isNull := by
  cases a <;> cases b <;> simp_all [optionalInt64Equal, TfVal.isNull]

/-- Claim C5 (amended): for the optional int64 fields
(minimum/maximum/preset amount on custom prices, cap_amount on
metered-unit prices) an unset planned field matches only an existing price
with that field also unset; a planned price_currency left unset, however,
is skipped by the comparison and matches any existing currency, as the
counterexample shows. -/
theorem claim_C5_absent_optional_fields (planned existing : PriceModel)
    (h : pricesMatch planned existing = true) :
    (valueString planned.amountType = "custom" →
      planned.minimumAmount.isNull = existing.minimumAmount.isNull ∧
      planned.maximumAmount.isNull = existing.maximumAmount.isNull ∧
      planned.presetAmount.isNull = existing.presetAmount.isNull) ∧
    (valueString planned.amountType = "metered_unit" →
      planned.capAmount.isNull = existing.capAmount.isNull) := by
  constructor
  · intro hamt
    unfold pricesMatch at h
    rw [hamt] at h
    split at h
    · exact absurd h (by simp)
    · have h3 : (optionalInt64Equal planned.minimumAmount existing.minimumAmount &&
          optionalInt64Equal planned.maximumAmount existing.maximumAmount &&
          optionalInt64Equal planned.presetAmount existing.presetAmount) = true := h
      simp only [Bool.and_eq_true] at h3
      exact ⟨optionalInt64Equal_isNull_eq _ _ h3.1.1,
        optionalInt64Equal_isNull_eq _ _ h3.1.2,
        optionalInt64Equal_isNull_eq _ _ h3.2⟩
  · intro hamt
    unfold pricesMatch at h
    rw [hamt] at h
    split at h
    · exact absurd h (by simp)
    · have h3 : (if valueString planned.meterID ≠ valueString existing.meterID then false
          else if numericStringsEqual (valueString planned.unitAmount)
              (valueString existing.unitAmount) = false then false
          else optionalInt64Equal planned.capAmount existing.capAmount) = true := h
      split at h3
      · exact absurd h3 (by simp)
      · split at h3
        · exact absurd h3 (by simp)
        · exact optionalInt64Equal_isNull_eq _ _ h3

/-- Witness for claim C5 on a matching pair of custom prices with
minimum_amount 100 set on both sides. -/
theorem claim_C5_absent_optional_fields_witness :
    (valueString ({ nullPriceModel ("custom") TfVal.null with
        minimumAmount := TfVal.value 100 } : PriceModel).amountType = "custom" →
      ({ nullPriceModel ("custom") TfVal.null with
        minimumAmount := TfVal.value 100 } : PriceModel).minimumAmount.isNull =
        ({ nullPriceModel ("custom") TfVal.null with
          minimumAmount := TfVal.value 100 } : PriceModel).minimumAmount.isNull ∧
      ({ nullPriceModel ("custom") TfVal.null with
        minimumAmount := TfVal.value 100 } : PriceModel).maximumAmount.isNull =
        ({ nullPriceModel ("custom") TfVal.null with
          minimumAmount := TfVal.value 100 } : PriceModel).maximumAmount.isNull ∧
      ({ nullPriceModel ("custom") TfVal.null with
        minimumAmount := TfVal.value 100 } : PriceModel).presetAmount.isNull =
        ({ nullPriceModel ("custom") TfVal.null with
          minimumAmount := TfVal.value 100 } : PriceModel).presetAmount.isNull) ∧
    (valueString ({ nullPriceModel ("custom") TfVal.null with
        minimumAmount := TfVal.value 100 } : PriceModel).amountType = "metered_unit" →
      ({ nullPriceModel ("custom") TfVal.null with
        minimumAmount := TfVal.value 100 } : PriceModel).capAmount.isNull =
        ({ nullPriceModel ("custom") TfVal.null with
          minimumAmount := TfVal.value 100 } : PriceModel).capAmount.isNull) :=
  claim_C5_absent_optional_fields
    { nullPriceModel ("custom") TfVal.null with minimumAmount := TfVal.value 100 }
    { nullPriceModel ("custom") TfVal.null with minimumAmount := TfVal.value 100 }
    (by decide)

/-- If every fetch outcome in the window is non-accepting (a 404 or a
stale read), the poll loop exhausts its fuel and returns the last
successful read as a soft timeout, or the hard error when there was
none. -/
theorem pollAux_exhausted (writeTs : Int) (fetch : Nat → FetchOutcome) :
    ∀ fuel i last, (∀ k, k < fuel → isNonAccepting writeTs (fetch (i + k)) = true) →
    pollAux writeTs fetch i fuel last =
      (match lastOkFrom fetch i fuel last with
       | some r => PollResult.softTimeout r
       | none => PollResult.notReadableError) := by
  intro fuel
  induction fuel with
  | zero =>
    intro i last h
    cases last <;> rfl
  | succ n ih =>
    intro i last h
    have h0 := h 0 (Nat.succ_pos n)
    rw [Nat.add_zero] at h0
    have hshift : ∀ k, k < n → isNonAccepting writeTs (fetch (i + 1 + k)) = true := by
      intro k hk
      have := h (k + 1) (Nat.succ_lt_succ hk)
      rwa [show i + (k + 1) = i + 1 + k by omega] at this
    cases hf : fetch i with
    | notFound =>
      simp only [pollAux, lastOkFrom, hf]
      exact ih (i + 1) last hshift
    | failure =>
      rw [hf] at h0
      exact absurd h0 (by simp [isNonAccepting])
    | ok r =>
      rw [hf] at h0
      have hlt : latestTimestamp r < writeTs := of_decide_eq_true h0
      simp only [pollAux, lastOkFrom, hf, if_pos hlt]
      exact ih (i + 1) (some r) hshift

/-- Claim C1: when pollForConsistency exhausts all ten attempts (every
fetch is a 404 or a stale read), it returns the last successful read with
the soft warning and no error if at least one fetch returned a result, and
the hard not-readable error if none did. -/
theorem claim_C1_poll_exhaustion (writeTs : Int) (fetch : Nat → FetchOutcome)
    (h : ∀ k, k < pollMaxAttempts → isNonAccepting writeTs (fetch k) = true) :
    (∀ r, lastOkFrom fetch 0 pollMaxAttempts none = some r →
      pollForConsistency writeTs fetch = PollResult.softTimeout r) ∧
    (lastOkFrom fetch 0 pollMaxAttempts none = none →
      pollForConsistency writeTs fetch = PollResult.notReadableError) := by
  have key := pollAux_exhausted writeTs fetch pollMaxAttempts 0 none
    (by intro k hk; simpa using h k hk)
  constructor
  · intro r hr
    rw [pollForConsistency, key, hr]
  · intro hr
    rw [pollForConsistency, key, hr]

/-- Witness for claim C1 with a fetch that always returns 404: the poll
exhausts and returns the hard error. -/
theorem claim_C1_poll_exhaustion_witness :
    pollForConsistency 0 (fun _ => FetchOutcome.notFound) = PollResult.notReadableError :=
  (claim_C1_poll_exhaustion 0 (fun _ => FetchOutcome.notFound)
    (fun _ _ => rfl)).2 rfl

/-- The retry loop never invokes the operation more often than its fuel
allows. -/
theorem doWithRetryAux_calls_le (fn : Nat → HTTPOutcome) :
    ∀ fuel attempt, (doWithRetryAux fn attempt fuel).2 ≤ fuel := by
  intro fuel
  induction fuel with
  | zero => intro attempt; exact Nat.le_refl 0
  | succ n ih =>
    intro attempt
    cases hf : fn attempt with
    | err =>
      simp only [doWithRetryAux, hf]
      omega
    | handled =>
      simp only [doWithRetryAux, hf]
      omega
    | status code =>
      simp only [doWithRetryAux, hf]
      split
      · show 1 ≤ n + 1
        omega
      · split
        · show (doWithRetryAux fn (attempt + 1) n).2 + 1 ≤ n + 1
          have := ih (attempt + 1)
          omega
        · show 1 ≤ n + 1
          omega

/-- Whenever the retry loop reaches attempt k+1, attempt k returned a
response with status 429 or 5xx: those are the only outcomes that lead to
a further invocation. -/
theorem doWithRetryAux_retries_transient (fn : Nat → HTTPOutcome) :
    ∀ fuel attempt k, k + 1 < (doWithRetryAux fn attempt fuel).2 →
    ∃ c, fn (attempt + k) = HTTPOutcome.status c ∧ (c = 429 ∨ 500 ≤ c) := by
  intro fuel
  induction fuel with
  | zero =>
    intro attempt k hk
    exact absurd hk (by simp [doWithRetryAux])
  | succ n ih =>
    intro attempt k hk
    cases hf : fn attempt with
    | err =>
      rw [show (doWithRetryAux fn attempt (n + 1)).2 = 1 by simp [doWithRetryAux, hf]] at hk
      omega
    | handled =>
      rw [show (doWithRetryAux fn attempt (n + 1)).2 = 1 by simp [doWithRetryAux, hf]] at hk
      omega
    | status code =>
      simp only [doWithRetryAux, hf] at hk
      by_cases h2 : 200 ≤ code ∧ code < 300
      · rw [if_pos h2] at hk
        exact absurd hk (by omega)
      · rw [if_neg h2] at hk
        by_cases h3 : (code = 429 ∨ 500 ≤ code) ∧ attempt + 1 < retryMaxAttempts
        · rw [if_pos h3] at hk
          have hk2 : k + 1 < (doWithRetryAux fn (attempt + 1) n).2 + 1 := hk
          cases k with
          | zero =>
            refine ⟨code, ?_, h3.1⟩
            rw [Nat.add_zero]
            exact hf
          | succ k2 =>
            have hk3 : k2 + 1 < (doWithRetryAux fn (attempt + 1) n).2 := by omega
            obtain ⟨c, hc, ht⟩ := ih (attempt + 1) k2 hk3
            refine ⟨c, ?_, ht⟩
            rwa [show attempt + (k2 + 1) = attempt + 1 + k2 by omega]
        · rw [if_neg h3] at hk
          exact absurd hk (by omega)

/-- Claim C8: doWithRetry invokes its operation at most five times;
re-invocation happens only after a 429 or 5xx response; an operation error
returns immediately as a propagated error after a single invocation; and
any other non-2xx status (neither 429 nor 5xx) returns the status error
immediately after a single invocation. -/
theorem claim_C8_retry_policy (fn : Nat → HTTPOutcome) :
    doWithRetryCalls fn ≤ retryMaxAttempts ∧
    (∀ k, k + 1 < doWithRetryCalls fn →
      ∃ c, fn k = HTTPOutcome.status c ∧ (c = 429 ∨ 500 ≤ c)) ∧
    (fn 0 = HTTPOutcome.err →
      doWithRetry fn = RetryResult.errProp ∧ doWithRetryCalls fn = 1) ∧
    (∀ c, fn 0 = HTTPOutcome.status c → ¬ (200 ≤ c ∧ c < 300) → c ≠ 429 → c < 500 →
      doWithRetry fn = RetryResult.errStatus c ∧ doWithRetryCalls fn = 1) := by
  refine ⟨doWithRetryAux_calls_le fn retryMaxAttempts 0, ?_, ?_, ?_⟩
  · intro k hk
    have := doWithRetryAux_retries_transient fn retryMaxAttempts 0 k hk
    simpa using this
  · intro h
    have e : doWithRetryAux fn 0 retryMaxAttempts = (RetryResult.errProp, 1) := by
      show doWithRetryAux fn 0 (4 + 1) = (RetryResult.errProp, 1)
      simp [doWithRetryAux, h]
    exact ⟨by rw [doWithRetry, e], by rw [doWithRetryCalls, e]⟩
  · intro c hc h2 h429 h5
    have hcond : ¬ ((c = 429 ∨ 500 ≤ c) ∧ 0 + 1 < retryMaxAttempts) := by
      rintro ⟨hor, _⟩
      rcases hor with h | h
      · exact h429 h
      · omega
    have e : doWithRetryAux fn 0 retryMaxAttempts = (RetryResult.errStatus c, 1) := by
      show doWithRetryAux fn 0 (4 + 1) = (RetryResult.errStatus c, 1)
      simp only [doWithRetryAux, hc]
      rw [if_neg h2, if_neg hcond]
    exact ⟨by rw [doWithRetry, e], by rw [doWithRetryCalls, e]⟩

/-- Witness for claim C8: a constant 404 response yields the status error
after exactly one invocation, with no retry. -/
theorem claim_C8_retry_policy_witness :
    doWithRetry (fun _ => HTTPOutcome.status 404) = RetryResult.errStatus 404 ∧
    doWithRetryCalls (fun _ => HTTPOutcome.status 404) = 1 :=
  (claim_C8_retry_policy (fun _ => HTTPOutcome.status 404)).2.2.2 404 rfl
    (by omega) (by omega) (by omega)

/-- Claim C9: once Products.Create returns an id, the very next step of
the Create flow persists that id into state (the first two actions are the
create call and the state write of the id, before any benefits write or
poll), and every execution — in particular every one where a later step
fails — ends with that id in state. -/
theorem claim_C9_identity_persisted (o : CreateOutcomes) (id : String)
    (h : o.createResult = some id) :
    (productCreateFlow o).1.take 2 = [CreateAction.apiCreate, CreateAction.stateSetId id] ∧
    (productCreateFlow o).2.stateID = some id := by
  rcases o with ⟨cr, mb, bo, po⟩
  cases cr with
  | none => exact absurd h (by simp)
  | some idv =>
    simp only [Option.some.injEq] at h
    subst h
    cases mb <;> cases bo <;> cases po <;>
      simp [productCreateFlow]

/-- Witness for claim C9: the benefits write fails after a successful
create; the created id p1 is nevertheless in state. -/
theorem claim_C9_identity_persisted_witness :
    (productCreateFlow (CreateOutcomes.mk (some ("p1")) true false true)).1.take 2 =
      [CreateAction.apiCreate, CreateAction.stateSetId ("p1")] ∧
    (productCreateFlow (CreateOutcomes.mk (some ("p1")) true false true)).2.stateID =
      some ("p1") :=
  claim_C9_identity_persisted (CreateOutcomes.mk (some ("p1")) true false true) ("p1") rfl

/-- sameApartFromUnitAmount is reflexive. -/
theorem sameApartFromUnitAmount_refl (p : PriceModel) : sameApartFromUnitAmount p p :=
  ⟨rfl, rfl, rfl, rfl, rfl, rfl, rfl, rfl⟩

/-- Updating only the unitAmount field leaves a price model equal to the
original on all other fields. -/
theorem sameApartFromUnitAmount_set (p : PriceModel) (ua : TfVal String) :
    sameApartFromUnitAmount { p with unitAmount := ua } p :=
  ⟨rfl, rfl, rfl, rfl, rfl, rfl, rfl, rfl⟩

/-- The preservation loop rewrites at most the unitAmount of each entry,
pointwise in order. -/
theorem preserveAux_frame (prices : List PriceModel) :
    ∀ priors, List.Forall₂ sameApartFromUnitAmount (preserveAux prices priors) prices := by
  induction prices with
  | nil =>
    intro priors
    exact List.Forall₂.nil
  | cons p ps ih =>
    intro priors
    simp only [preserveAux]
    split
    · exact List.Forall₂.cons (sameApartFromUnitAmount_refl p) (ih priors)
    · cases hf : findFormattingSource p priors with
      | none => exact List.Forall₂.cons (sameApartFromUnitAmount_refl p) (ih priors)
      | some pr => exact List.Forall₂.cons (sameApartFromUnitAmount_set p pr.1) (ih pr.2)

/-- Claim C10: preserveUnitAmountFormatting changes at most the unitAmount
field of the price list: the result is pointwise equal to the input on
every other field (and has the same length); the prior list is only read
by the code, never written. -/
theorem claim_C10_frame (prices priorPrices : List PriceModel) :
    List.Forall₂ sameApartFromUnitAmount
      (preserveUnitAmountFormatting prices priorPrices) prices :=
  preserveAux_frame prices (priorPrices.map (fun q => (q, false)))

/-- Unfolding unusedIds over a cons cell. -/
theorem unusedIds_cons (ep : ExistingPrice) (rest : List ExistingPrice) :
    unusedIds (ep :: rest) =
      if ep.used then unusedIds rest else ep.id :: unusedIds rest := by
  cases h : ep.used <;> simp [unusedIds, List.filterMap_cons, h]

/-- A successful findMatch consumes exactly one occurrence of the matched
id from the unused ids: the unused ids split around the returned id, and
the returned list's unused ids are the split with that occurrence
removed. -/
theorem findMatch_unusedIds (p : PriceModel) :
    ∀ (ex : List ExistingPrice) (id : String) (ex2 : List ExistingPrice),
      findMatch p ex = some (id, ex2) →
      ∃ l1 l2, unusedIds ex = l1 ++ id :: l2 ∧ unusedIds ex2 = l1 ++ l2 := by
  intro ex
  induction ex with
  | nil =>
    intro id ex2 h
    exact absurd h (by simp [findMatch])
  | cons ep rest ih =>
    intro id ex2 h
    simp only [findMatch] at h
    split at h
    · rename_i hcond
      simp only [Option.some.injEq, Prod.mk.injEq] at h
      obtain ⟨hid, hex⟩ := h
      subst hid
      subst hex
      refine ⟨[], unusedIds rest, ?_, ?_⟩
      · simp [unusedIds_cons, hcond.1]
      · simp [unusedIds_cons]
    · cases hr : findMatch p rest with
      | none =>
        rw [hr] at h
        exact absurd h (by simp)
      | some pr =>
        rw [hr] at h
        simp only [Option.some.injEq, Prod.mk.injEq] at h
        obtain ⟨hid, hex⟩ := h
        subst hid
        subst hex
        obtain ⟨l1, l2, e1, e2⟩ := ih pr.1 pr.2 (by rw [hr])
        cases hu : ep.used with
        | true =>
          refine ⟨l1, l2, ?_, ?_⟩
          · simp [unusedIds_cons, hu, e1]
          · simp [unusedIds_cons, hu, e2]
        | false =>
          refine ⟨ep.id :: l1, l2, ?_, ?_⟩
          · simp [unusedIds_cons, hu, e1]
          · simp [unusedIds_cons, hu, e2]

/-- Unfolding reusedIds over an existing-price reference. -/
theorem reusedIds_cons_existing (id : String) (tail : List ProductUpdatePrice) :
    reusedIds (ProductUpdatePrice.existing id :: tail) = id :: reusedIds tail := by
  simp [reusedIds, List.filterMap_cons]

/-- A new price definition contributes nothing to the reused ids. -/
theorem reusedIds_cons_new (np : ProductUpdatePrice) (tail : List ProductUpdatePrice)
    (h : ∀ id, np ≠ ProductUpdatePrice.existing id) :
    reusedIds (np :: tail) = reusedIds tail := by
  cases np with
  | existing id1 => exact absurd rfl (h id1)
  | newFixed c => simp [reusedIds, List.filterMap_cons]
  | newFree => simp [reusedIds, List.filterMap_cons]
  | newCustom c => simp [reusedIds, List.filterMap_cons]
  | newMeteredUnit c => simp [reusedIds, List.filterMap_cons]

/-- buildNewPrice never fabricates an existing-price reference. -/
theorem buildNewPrice_ne_existing (p : PriceModel) (np : ProductUpdatePrice)
    (h : buildNewPrice p = some np) : ∀ id, np ≠ ProductUpdatePrice.existing id := by
  intro id
  unfold buildNewPrice at h
  split at h
  · simp only [Option.some.injEq] at h
    subst h
    simp
  · simp only [Option.some.injEq] at h
    subst h
    simp
  · simp only [Option.some.injEq] at h
    subst h
    simp
  · simp only [Option.some.injEq] at h
    subst h
    simp
  · exact absurd h (by simp)

/-- The reused ids of any result of the update-price loop form a
sub-permutation of the unused ids of the existing list: each unused
existing entry is consumed at most once. -/
theorem pricesToUpdateAux_subperm :
    ∀ (planned : List PriceModel) (ex : List ExistingPrice) (out : List ProductUpdatePrice),
      pricesToUpdateAux planned ex = some out →
      List.Subperm (reusedIds out) (unusedIds ex) := by
  intro planned
  induction planned with
  | nil =>
    intro ex out h
    simp only [pricesToUpdateAux, Option.some.injEq] at h
    subst h
    exact List.nil_subperm
  | cons p ps ih =>
    intro ex out h
    simp only [pricesToUpdateAux] at h
    cases hm : findMatch p ex with
    | some pr =>
      simp only [hm] at h
      cases ht : pricesToUpdateAux ps pr.2 with
      | none =>
        simp only [ht] at h
        exact absurd h (by simp)
      | some tail =>
        simp only [ht, Option.some.injEq] at h
        subst h
        obtain ⟨l1, l2, e1, e2⟩ := findMatch_unusedIds p ex pr.1 pr.2 (by rw [hm])
        have hsub := ih pr.2 tail ht
        rw [e2] at hsub
        rw [reusedIds_cons_existing, e1]
        exact List.Subperm.trans ((List.subperm_cons pr.1).mpr hsub)
          (List.perm_middle.symm.subperm)
    | none =>
      simp only [hm] at h
      cases hb : buildNewPrice p with
      | none =>
        simp only [hb] at h
        exact absurd h (by simp)
      | some np =>
        simp only [hb] at h
        cases ht : pricesToUpdateAux ps ex with
        | none =>
          simp only [ht] at h
          exact absurd h (by simp)
        | some tail =>
          simp only [ht, Option.some.injEq] at h
          subst h
          rw [reusedIds_cons_new np tail (buildNewPrice_ne_existing p np hb)]
          exact ih ex tail ht

/-- Every entry produced by extractExistingPrices starts unused. -/
theorem extract_used_false (api : List (Option ProductPrice)) :
    ∀ ep ∈ extractExistingPrices api, ep.used = false := by
  intro ep hep
  simp only [extractExistingPrices, List.mem_filterMap] at hep
  obtain ⟨op, hmem, hop⟩ := hep
  split at hop
  · exact absurd hop (by simp)
  · split at hop
    · exact absurd hop (by simp)
    · simp only [Option.some.injEq] at hop
      rw [← hop]

/-- When every entry is unused, the unused ids are exactly the mapped
ids. -/
theorem unusedIds_eq_map (ex : List ExistingPrice) (h : ∀ ep ∈ ex, ep.used = false) :
    unusedIds ex = ex.map ExistingPrice.id := by
  induction ex with
  | nil => rfl
  | cons ep rest ih =>
    rw [unusedIds_cons, h ep (List.mem_cons_self ep rest)]
    simp [ih (fun q hq => h q (List.mem_cons_of_mem ep hq))]

/-- Claim C2, counterexample: when the existing list itself carries the
same remote id twice, two planned prices may both be assigned that id, so
the claim fails as stated over arbitrary existing lists. -/
theorem claim_C2_counterexample :
    pricesToUpdateSDK [plannedFixed500, plannedFixed500]
      [some (ProductPrice.fixed ("A") 500 ("usd")), some (ProductPrice.fixed ("A") 500 ("usd"))]
      = some [ProductUpdatePrice.existing ("A"), ProductUpdatePrice.existing ("A")] ∧
    ¬ (reusedIds [ProductUpdatePrice.existing ("A"),
        ProductUpdatePrice.existing ("A")]).Nodup := by
  decide

/-- Claim C2 (amended): provided the ids extracted from the existing
prices are pairwise distinct (as remote identities are in practice), no
two entries of a pricesToUpdateSDK result reuse the same existing price
id: each existing identity is assigned to at most one planned price. -/
theorem claim_C2_no_double_assignment (planned : List PriceModel)
    (api : List (Option ProductPrice))
    (hnodup : ((extractExistingPrices api).map ExistingPrice.id).Nodup)
    (out : List ProductUpdatePrice)
    (hout : pricesToUpdateSDK planned api = some out) :
    (reusedIds out).Nodup := by
  have hsub : List.Subperm (reusedIds out) (unusedIds (extractExistingPrices api)) :=
    pricesToUpdateAux_subperm planned (extractExistingPrices api) out hout
  rw [unusedIds_eq_map _ (extract_used_false api)] at hsub
  obtain ⟨l, hperm, hsl⟩ := hsub
  exact hperm.nodup_iff.mp (List.Nodup.sublist hsl hnodup)

/-- Witness for claim C2 on one planned price against one existing price
with id A. -/
theorem claim_C2_no_double_assignment_witness :
    (reusedIds [ProductUpdatePrice.existing ("A")]).Nodup :=
  claim_C2_no_double_assignment [plannedFixed500]
    [some (ProductPrice.fixed ("A") 500 ("usd"))]
    (by decide) [ProductUpdatePrice.existing ("A")] (by decide)
